import Mathlib

/-!
Verification development for the QuizAI repository.

The repository ships two parallel variants of its two main modules:
`geminiService` (here `extractMCQsFromText_v1` / `extractMCQsFromText_v2`) and
the `App` component (session operations suffixed `_v1` / `_v2` where the two
variants differ; unsuffixed where they are identical).  The shallow embedding
below models, from the TypeScript source:

* `JSON.parse` (a strict JSON parser producing `Json` values; JS numbers are
  modelled as exact decimals, mantissa times a power of ten),
* JS member access / truthiness as used by the code,
* the reply normalization (trim, fenced-code-block stripping) and the
  extraction pipeline of both `extractMCQsFromText` variants,
* the App session state and its operations (`handleConfirmAnswer`,
  `finishQuiz`, `resetQuiz`, `saveEditedQuestion`, `clearAllData`,
  the committed effects of `handleFileUpload`, navigation),
* the startup reads of the two persisted slots.

`Date.now()` is modelled as an explicit `now : Nat` parameter.
-/

namespace QuizAI

set_option maxRecDepth 200000

/-- A JS number, modelled exactly: every numeric literal the repository
parses or compares is a decimal, so a number is kept as
`mantissa * 10 ^ exp10` with integer mantissa and exponent.  The code only
ever compares numbers (`confidence < 0.8`, `length > 0`), which is decided
on this representation without rounding. -/
structure JsNum where
  mantissa : Int
  exp10 : Int
deriving DecidableEq

/-- Value-level strict comparison of two JS numbers: align the exponents and
compare the scaled mantissas. -/
def jsNumLt (a b : JsNum) : Bool :=
  if a.exp10 ≤ b.exp10 then a.mantissa < b.mantissa * (10 : Int) ^ (b.exp10 - a.exp10).toNat
  else a.mantissa * (10 : Int) ^ (a.exp10 - b.exp10).toNat < b.mantissa

/-- JSON values as produced by `JSON.parse`; object field lists keep
insertion order and have unique keys (duplicate keys in the source text are
collapsed, later value wins, as `JSON.parse` does). -/
inductive Json where
  | null
  | bool (b : Bool)
  | num (n : JsNum)
  | str (s : String)
  | arr (elems : List Json)
  | obj (fields : List (String × Json))

/-- Whitespace accepted by the JSON grammar (`JSON.parse`). -/
def isJsonWs (c : Char) : Bool :=
  c == ' ' || c == '\t' || c == '\n' || c == '\r'

/-- Drop leading JSON whitespace. -/
def skipWs : List Char → List Char
  | [] => []
  | c :: cs => if isJsonWs c then skipWs cs else c :: cs

/-- Decimal value of a digit string (most significant digit first). -/
def digitsToNat (ds : List Char) : Nat :=
  ds.foldl (fun a c => a * 10 + (c.toNat - 48)) 0

/-- Split a run of leading decimal digits from the rest. -/
def takeDigits (cs : List Char) : List Char × List Char :=
  (cs.takeWhile Char.isDigit, cs.dropWhile Char.isDigit)

/-- Integer part of a JSON number: `0`, or a nonzero digit followed by digits. -/
def parseIntPart : List Char → Option (List Char × List Char)
  | [] => none
  | c :: rest =>
    if c == '0' then some (['0'], rest)
    else if c.isDigit then
      let p := takeDigits rest
      some (c :: p.1, p.2)
    else none

/-- Optional fractional part `.digits` of a JSON number; `[]` when absent. -/
def parseFracPart : List Char → Option (List Char × List Char)
  | '.' :: rest =>
    let p := takeDigits rest
    if p.1.isEmpty then none else some (p.1, p.2)
  | cs => some ([], cs)

/-- Optional exponent part `e|E [+|-] digits`; `0` when absent. -/
def parseExpPart : List Char → Option (Int × List Char)
  | [] => some (0, [])
  | c :: rest =>
    if c == 'e' || c == 'E' then
      match rest with
      | '+' :: r2 =>
        let p := takeDigits r2
        if p.1.isEmpty then none else some ((digitsToNat p.1 : Int), p.2)
      | '-' :: r2 =>
        let p := takeDigits r2
        if p.1.isEmpty then none else some (-(digitsToNat p.1 : Int), p.2)
      | r2 =>
        let p := takeDigits r2
        if p.1.isEmpty then none else some ((digitsToNat p.1 : Int), p.2)
    else some (0, c :: rest)

/-- Parse a JSON number (strict grammar, as `JSON.parse`): the digits of the
integer and fractional parts form the mantissa, the exponent is the written
exponent minus the number of fractional digits. -/
def parseNumber (cs : List Char) : Option (JsNum × List Char) :=
  let sp : Bool × List Char := match cs with
    | '-' :: r => (true, r)
    | _ => (false, cs)
  match parseIntPart sp.2 with
  | none => none
  | some (ids, cs2) =>
    match parseFracPart cs2 with
    | none => none
    | some (fds, cs3) =>
      match parseExpPart cs3 with
      | none => none
      | some (e, cs4) =>
        let m : Int := (digitsToNat (ids ++ fds) : Int)
        some (⟨if sp.1 then -m else m, e - (fds.length : Int)⟩, cs4)

/-- Value of a hex digit, if any. -/
def hexVal : Char → Option Nat := fun c =>
  if c.isDigit then some (c.toNat - 48)
  else if 'a' ≤ c && c ≤ 'f' then some (c.toNat - 87)
  else if 'A' ≤ c && c ≤ 'F' then some (c.toNat - 55)
  else none

/-- Prepend a char to the parsed string of an intermediate result. -/
def consStr (c : Char) : Option (List Char × List Char) → Option (List Char × List Char) :=
  Option.map (fun p => (c :: p.1, p.2))

/-- Body of a JSON string after the opening quote: content chars and the rest
of the input.  Handles the JSON escapes; rejects unescaped control chars, as
`JSON.parse` does.  `\uXXXX` builds the char with `Char.ofNat` (an invalid
scalar value degrades to `'\x00'`; no claim touches that corner). -/
def parseStringBody : List Char → Option (List Char × List Char)
  | [] => none
  | '"' :: rest => some ([], rest)
  | '\\' :: '"' :: rest => consStr '"' (parseStringBody rest)
  | '\\' :: '\\' :: rest => consStr '\\' (parseStringBody rest)
  | '\\' :: '/' :: rest => consStr '/' (parseStringBody rest)
  | '\\' :: 'b' :: rest => consStr '\x08' (parseStringBody rest)
  | '\\' :: 'f' :: rest => consStr '\x0c' (parseStringBody rest)
  | '\\' :: 'n' :: rest => consStr '\n' (parseStringBody rest)
  | '\\' :: 'r' :: rest => consStr '\r' (parseStringBody rest)
  | '\\' :: 't' :: rest => consStr '\t' (parseStringBody rest)
  | '\\' :: 'u' :: h1 :: h2 :: h3 :: h4 :: rest =>
    (match hexVal h1, hexVal h2, hexVal h3, hexVal h4 with
     | some a, some b, some c, some d =>
       consStr (Char.ofNat (((a * 16 + b) * 16 + c) * 16 + d)) (parseStringBody rest)
     | _, _, _, _ => none)
  | '\\' :: _ => none
  | c :: rest =>
    if c.toNat < 32 then none else consStr c (parseStringBody rest)

/-- Insert a key into an object field list: replace in place when the key is
present (later duplicate wins, position kept), append otherwise. -/
def objInsert (fs : List (String × Json)) (k : String) (v : Json) : List (String × Json) :=
  if fs.any (fun p => p.1 == k) then
    fs.map (fun p => if p.1 == k then (k, v) else p)
  else fs ++ [(k, v)]

mutual

/-- Parse one JSON value (fueled recursion; fuel bounds the nesting work). -/
def parseVal : Nat → List Char → Option (Json × List Char)
  | 0, _ => none
  | fuel + 1, cs =>
    match skipWs cs with
    | 'n' :: 'u' :: 'l' :: 'l' :: r => some (.null, r)
    | 't' :: 'r' :: 'u' :: 'e' :: r => some (.bool true, r)
    | 'f' :: 'a' :: 'l' :: 's' :: 'e' :: r => some (.bool false, r)
    | '"' :: r => (parseStringBody r).map (fun p => (.str (String.mk p.1), p.2))
    | '[' :: r =>
      (match skipWs r with
       | ']' :: r2 => some (.arr [], r2)
       | r2 => parseItems fuel r2 [])
    | '\x7b' :: r =>
      (match skipWs r with
       | '\x7d' :: r2 => some (.obj [], r2)
       | r2 => parseFields fuel r2 [])
    | cs2 => (parseNumber cs2).map (fun p => (.num p.1, p.2))

/-- Parse the comma-separated items of a nonempty JSON array. -/
def parseItems : Nat → List Char → List Json → Option (Json × List Char)
  | 0, _, _ => none
  | fuel + 1, cs, acc =>
    match parseVal fuel cs with
    | none => none
    | some (v, rest) =>
      match skipWs rest with
      | ',' :: r2 => parseItems fuel r2 (acc ++ [v])
      | ']' :: r2 => some (.arr (acc ++ [v]), r2)
      | _ => none

/-- Parse the members of a nonempty JSON object. -/
def parseFields : Nat → List Char → List (String × Json) → Option (Json × List Char)
  | 0, _, _ => none
  | fuel + 1, cs, acc =>
    match skipWs cs with
    | '"' :: r =>
      (match parseStringBody r with
       | none => none
       | some (kcs, r2) =>
         match skipWs r2 with
         | ':' :: r3 =>
           (match parseVal fuel r3 with
            | none => none
            | some (v, r4) =>
              let acc2 := objInsert acc (String.mk kcs) v
              match skipWs r4 with
              | ',' :: r5 => parseFields fuel r5 acc2
              | '\x7d' :: r5 => some (.obj acc2, r5)
              | _ => none)
         | _ => none)
    | _ => none

end

/-- `JSON.parse` on a char list: whole input must be one value surrounded by
whitespace; any other input raises a `SyntaxError`. -/
def parseJsonChars (cs : List Char) : Except String Json :=
  match parseVal (2 * cs.length + 2) cs with
  | none => .error "SyntaxError"
  | some (v, rest) =>
    if (skipWs rest).isEmpty then .ok v else .error "SyntaxError"

/-- JS truthiness of a JSON value. -/
def jsTruthy : Json → Bool
  | .null => false
  | .bool b => b
  | .num n => if n.mantissa = 0 then false else true
  | .str s => if s = "" then false else true
  | .arr _ => true
  | .obj _ => true

/-- JS member access `j.k`.  `none` means the access itself throws a
`TypeError` (base is `null`); `some none` is `undefined`; `some (some v)` is
the field's value. -/
def jsMember : Json → String → Option (Option Json)
  | .null, _ => none
  | .obj fs, k => some ((fs.find? (fun p => p.1 == k)).map (fun p => p.2))
  | _, _ => some none

/-- Field lookup that conflates `undefined` and a throwing access. -/
def jsField (j : Json) (k : String) : Option Json :=
  match jsMember j k with
  | some (some v) => some v
  | _ => none

/-- Truthiness of a possibly-`undefined` value. -/
def jsTruthyOpt : Option Json → Bool
  | some v => jsTruthy v
  | none => false

/-- `Array.isArray` on a possibly-`undefined` value. -/
def isArrOpt : Option Json → Bool
  | some (.arr _) => true
  | _ => false

/-- The elements of a value known to be an array. -/
def arrElems : Option Json → List Json
  | some (.arr xs) => xs
  | _ => []

/-- JS `.length` read, as used by `parsed.questions.length`: arrays and
strings have their length; other objects expose a numeric `length` field if
they have one; everything else gives `undefined`. -/
def jsLengthVal : Json → Option JsNum
  | .arr xs => some ⟨(xs.length : Int), 0⟩
  | .str s => some ⟨(s.length : Int), 0⟩
  | .obj fs =>
    (match ((fs.find? (fun p => p.1 == "length")).map (fun p => p.2) : Option Json) with
     | some (.num n) => some n
     | _ => none)
  | _ => none

/-! ### Reply normalization (`geminiService`, both variants)

Variant 1 runs `response.text.trim()` and, when the trimmed text starts with
a fenced code block marker, strips the leading and trailing fence tokens
(`replace(/^```(?:json)?\n?/, '').replace(/\n?```$/, '')`).
Variant 2 only trims. -/

/-- Whitespace trimmed by JS `String.prototype.trim` (the ASCII part plus
NBSP; the exotic Unicode space characters never occur in the claims). -/
def isTrimWs (c : Char) : Bool :=
  c == ' ' || c == '\t' || c == '\n' || c == '\r' || c == '\x0b' || c == '\x0c' || c == '\xa0'

/-- JS `trim()` on a char list. -/
def jsTrim (cs : List Char) : List Char :=
  ((cs.dropWhile isTrimWs).reverse.dropWhile isTrimWs).reverse

/-- `startsWith('```')`. -/
def startsWithFence : List Char → Bool
  | '`' :: '`' :: '`' :: _ => true
  | _ => false

/-- `replace(/^```(?:json)?\n?/, '')`: drop the three leading backticks, then
an optional `json`, then an optional newline (greedy, as the regex). -/
def dropLeadingFence : List Char → List Char
  | '`' :: '`' :: '`' :: rest =>
    let rest2 := match rest with
      | 'j' :: 's' :: 'o' :: 'n' :: r => r
      | _ => rest
    (match rest2 with
     | '\n' :: r => r
     | _ => rest2)
  | cs => cs

/-- `replace(/\n?```$/, '')`: drop three trailing backticks and an optional
newline right before them, when the text ends with the fence. -/
def dropTrailingFence (cs : List Char) : List Char :=
  match cs.reverse with
  | '`' :: '`' :: '`' :: rest =>
    (match rest with
     | '\n' :: r => r
     | _ => rest).reverse
  | _ => cs

/-- Variant 1's `cleanedText` computation: trim, then strip fences when the
trimmed reply starts with one. -/
def normalizeReply (t : String) : List Char :=
  let cleaned := jsTrim t.data
  if startsWithFence cleaned then dropTrailingFence (dropLeadingFence cleaned)
  else cleaned

/-! ### Generated ids: `` `q-${index}-${Date.now()}` `` -/

/-- Decimal digit character of `n < 10`. -/
def digitChar (n : Nat) : Char := Char.ofNat (48 + n)

/-- Little-endian decimal digits, with explicit fuel so that the definition
is structurally recursive (any fuel above the number works). -/
def natToRevDigitsFuel : Nat → Nat → List Char
  | 0, _ => []
  | fuel + 1, n =>
    if n < 10 then [digitChar n]
    else digitChar (n % 10) :: natToRevDigitsFuel fuel (n / 10)

/-- Little-endian decimal digits of a natural number. -/
def natToRevDigits (n : Nat) : List Char := natToRevDigitsFuel (n + 1) n

/-- Decimal rendering of a natural number (as the JS template literal). -/
def natToStr (n : Nat) : String := String.mk (natToRevDigits n).reverse

/-- The characters of `` `q-${i}-${now}` ``. -/
def genIdChars (i now : Nat) : List Char :=
  'q' :: '-' :: ((natToRevDigits i).reverse ++ '-' :: (natToRevDigits now).reverse)

/-- The id string `` `q-${index}-${Date.now()}` `` assigned by both
`extractMCQsFromText` variants. -/
def genId (i now : Nat) : String := String.mk (genIdChars i now)

/-! ### The post-parse transform `{...q, id}` -/

/-- Own enumerable properties taken by an object spread `{...q}`: an object's
fields, an array's or string's index properties, nothing for primitives. -/
def spreadFields : Json → List (String × Json)
  | .obj fs => fs
  | .arr xs => xs.enum.map (fun p => (natToStr p.1, p.2))
  | .str s => s.data.enum.map (fun p => (natToStr p.1, Json.str (String.mk [p.2])))
  | _ => []

/-- `{...q, id: idStr}`: the spread fields with the fresh id; a backend
supplied `id` is overridden (the value here is observationally the lookup
result, so the overridden key is dropped and the fresh id appended). -/
def withId (q : Json) (idStr : String) : Json :=
  .obj ((spreadFields q).filter (fun p => !(p.1 == "id")) ++ [("id", .str idStr)])

/-- `data.questions.map((q, index) => ({...q, id: `q-${index}-${Date.now()}`}))`. -/
def assignIds (qs : List Json) (now : Nat) : List Json :=
  qs.enum.map (fun p => withId p.2 (genId p.1 now))

/-- The `ExtractionResult` shape returned to the caller.  The code does not
validate the backend records beyond the `questions`-array check, so the
records (and the title) stay raw JSON values. -/
structure ExtractionResult where
  title : Json
  questions : List Json

/-- The distinct failures that can escape variant 1 of
`extractMCQsFromText`: the two explicit `throw new Error(...)`s, the
`SyntaxError` rewrapped by the catch block, and the `TypeError` raised by
`data.questions` when the reply decodes to JSON `null`. -/
inductive ExtractErr1 where
  | emptyResponse
  | malformedOutput
  | schemaViolation
  | nullAccess
deriving DecidableEq

/-- The user-facing message of each variant-1 failure. -/
def errMessage1 : ExtractErr1 → String
  | .emptyResponse => "Gemini returned an empty response."
  | .malformedOutput => "Failed to parse Gemini response as JSON. The model may have returned invalid data."
  | .schemaViolation => "Gemini response was not in the expected format."
  | .nullAccess => "Cannot read properties of null (reading 'questions')"

/-- The common tail of both variants: parse the cleaned reply, check
`!data.questions || !Array.isArray(data.questions)`, assign ids, default the
title (`data.title || fallback`). -/
def extractCore (cleaned : List Char) (now : Nat) (fallback : String) :
    Except ExtractErr1 ExtractionResult :=
  match parseJsonChars cleaned with
  | .error _ => .error .malformedOutput
  | .ok data =>
    match jsMember data "questions" with
    | none => .error .nullAccess
    | some mq =>
      if jsTruthyOpt mq && isArrOpt mq then
        let title : Json := match jsField data "title" with
          | some tv => if jsTruthy tv then tv else .str fallback
          | none => .str fallback
        .ok ⟨title, assignIds (arrElems mq) now⟩
      else .error .schemaViolation

/-- Variant 1 of `extractMCQsFromText` (`src/unnamed/part_000`, first copy):
empty-reply check, trim + fence stripping, `JSON.parse`, schema check, id
assignment, title fallback `"Untitled Quiz"`.  The backend reply is the
`respText` parameter (`none` models a missing `response.text`); `Date.now()`
is the `now` parameter. -/
def extractMCQsFromText_v1 (respText : Option String) (now : Nat) :
    Except ExtractErr1 ExtractionResult :=
  match respText with
  | none => .error .emptyResponse
  | some t =>
    if t = "" then .error .emptyResponse
    else extractCore (normalizeReply t) now "Untitled Quiz"

/-- The single message produced by variant 2's catch-all handler. -/
def failMsg_v2 : String :=
  "Failed to convert PDF to MCQs. The document might be too large or the text might be unreadable."

/-- Variant 2 of `extractMCQsFromText` (`src/unnamed/part_000`, second copy):
same pipeline but the reply is only trimmed (no fence stripping), the title
fallback is `"QuizAI Generated Quiz"`, and the catch block replaces every
failure with the one generic `failMsg_v2` error. -/
def extractMCQsFromText_v2 (respText : Option String) (now : Nat) :
    Except String ExtractionResult :=
  match respText with
  | none => .error failMsg_v2
  | some t =>
    if t = "" then .error failMsg_v2
    else
      match extractCore (jsTrim t.data) now "QuizAI Generated Quiz" with
      | .error _ => .error failMsg_v2
      | .ok r => .ok r

/-! ### Startup reads of the two persisted slots (`App`, part_002 lines
33-36 and 46-66; part_003 is identical up to storage keys). -/

/-- The quiz/progress slot read: `JSON.parse` inside `try`/`catch`; a corrupt
value is logged and the state is left empty (`none`), and a parsed value only
populates the state when `parsed && parsed.questions &&
parsed.questions.length > 0`. -/
def loadQuizSlot (saved : Option String) : Option Json :=
  match saved with
  | none => none
  | some s =>
    match parseJsonChars s.data with
    | .error _ => none
    | .ok parsed =>
      if jsTruthy parsed &&
         (match jsField parsed "questions" with
          | some qv =>
            jsTruthy qv &&
            (match jsLengthVal qv with
             | some n => jsNumLt ⟨0, 0⟩ n
             | none => false)
          | none => false) then
        some parsed
      else none

/-- The attempt-history slot read:
`saved ? JSON.parse(saved) : []` with NO surrounding `try`/`catch` — a parse
failure is an uncaught exception (`Except.error`) escaping the `useState`
initializer. -/
def loadHistory (saved : Option String) : Except String Json :=
  match saved with
  | none => .ok (.arr [])
  | some s => parseJsonChars s.data

/-! ### Session layer (`App`, part_002 and part_003)

The typed `MCQ` interface of `types.ts`; the App trusts the extraction
result's cast to `MCQ[]`, so the session operations below work on this
structure. -/

structure MCQ where
  id : String
  question : String
  options : List String
  correctAnswer : String
  explanation : String
  pageNumber : JsNum
  confidence : JsNum
deriving DecidableEq

structure Attempt where
  id : String
  timestamp : Nat
  score : Nat
  total : Nat
deriving DecidableEq

/-- `QuizState` of `types.ts`.  `userAnswers : Record<string, string>` is an
insertion-ordered association list with unique keys (as a JS object). -/
structure QuizState where
  questions : List MCQ
  currentQuestionIndex : Nat
  userAnswers : List (String × String)
  isFinished : Bool
  isReviewMode : Bool
deriving DecidableEq

inductive AppMode where
  | upload | extracting | quiz | results | admin | progress
deriving DecidableEq

/-- The App component state relevant to the claims (render-only state such as
loading labels, dark mode and drag flags is omitted). -/
structure AppState where
  mode : AppMode
  questions : List MCQ
  quizName : String
  quizState : QuizState
  attempts : List Attempt
  pendingAnswer : Option String
  error : Option String
deriving DecidableEq

/-- JS object read `answers[id]` on the `userAnswers` record. -/
def lookupAns (m : List (String × String)) (k : String) : Option String :=
  (m.find? (fun p => p.1 == k)).map (fun p => p.2)

/-- JS object write `{...answers, [id]: v}`: replace in place when the key is
present, append otherwise. -/
def objUpsert (m : List (String × String)) (k v : String) : List (String × String) :=
  if m.any (fun p => p.1 == k) then
    m.map (fun p => if p.1 == k then (k, v) else p)
  else m ++ [(k, v)]

/-- JS truthiness of `pendingAnswer : string | null`. -/
def strTruthy : Option String → Bool
  | none => false
  | some s => if s = "" then false else true

/-- `handleConfirmAnswer` (identical in both App variants):

```
if (pendingAnswer) {
  const currentQ = quizState.questions[quizState.currentQuestionIndex];
  setQuizState(prev => ({...prev,
    userAnswers: { ...prev.userAnswers, [currentQ.id]: pendingAnswer }}));
  setPendingAnswer(null);
}
```

`none` models the `TypeError` thrown by `currentQ.id` when the index is out
of range (`currentQ === undefined`); note there is no guard on the index nor
on a previously committed answer. -/
def handleConfirmAnswer (st : AppState) : Option AppState :=
  if strTruthy st.pendingAnswer then
    match st.pendingAnswer, st.quizState.questions.get? st.quizState.currentQuestionIndex with
    | some a, some q =>
      some { st with
        quizState := { st.quizState with
          userAnswers := objUpsert st.quizState.userAnswers q.id a },
        pendingAnswer := none }
    | _, none => none
    | none, _ => some st
  else some st

/-- The scoring expression of `finishQuiz` (both variants):
`quizState.questions.filter(q => quizState.userAnswers[q.id] === q.correctAnswer).length`. -/
def scoreOf (qs : List MCQ) (ans : List (String × String)) : Nat :=
  qs.countP (fun q => lookupAns ans q.id == some q.correctAnswer)

/-- The `Attempt` created by `finishQuiz`. -/
def mkAttempt (st : AppState) (now : Nat) : Attempt :=
  { id := "attempt-" ++ natToStr now
    timestamp := now
    score := scoreOf st.quizState.questions st.quizState.userAnswers
    total := st.quizState.questions.length }

/-- `finishQuiz` (identical in both variants): compute the score over the
active questions, prepend a new `Attempt` to the history, switch to the
Results screen, set `isFinished`. -/
def finishQuiz (st : AppState) (now : Nat) : AppState :=
  { st with
    attempts := mkAttempt st now :: st.attempts
    mode := .results
    quizState := { st.quizState with isFinished := true } }

/-- `jumpToQuestion` (part_002): set the index, clear the pending answer. -/
def jumpToQuestion (st : AppState) (i : Nat) : AppState :=
  { st with
    quizState := { st.quizState with currentQuestionIndex := i }
    pendingAnswer := none }

/-- `goToNext` (both variants): advance if not at the last question, else
finish. -/
def goToNext (st : AppState) (now : Nat) : AppState :=
  if st.quizState.currentQuestionIndex < st.quizState.questions.length - 1 then
    { st with
      quizState := { st.quizState with
        currentQuestionIndex := st.quizState.currentQuestionIndex + 1 }
      pendingAnswer := none }
  else finishQuiz st now

/-- `goToPrev` (part_002): decrement if not at the first question. -/
def goToPrev (st : AppState) : AppState :=
  if 0 < st.quizState.currentQuestionIndex then
    { st with
      quizState := { st.quizState with
        currentQuestionIndex := st.quizState.currentQuestionIndex - 1 }
      pendingAnswer := none }
  else st

/-- The retake filter modes of part_002's `resetQuiz`. -/
inductive RetakeFilter where
  | all | incorrect | lowConfidence
deriving DecidableEq

/-- The filtered question list computed by part_002's `resetQuiz`: the master
list for `all` (or no filter), the unanswered-or-wrong records for
`incorrect`, the records with `confidence < 0.8` for `low-confidence`. -/
def retakeFilter (st : AppState) (filter : Option RetakeFilter) : List MCQ :=
  match filter with
  | some .incorrect =>
    st.questions.filter (fun q => !(lookupAns st.quizState.userAnswers q.id == some q.correctAnswer))
  | some .lowConfidence =>
    st.questions.filter (fun q => jsNumLt q.confidence ⟨8, -1⟩)
  | _ => st.questions

/-- `resetQuiz` (part_002): on an empty filter result set the inline error
and stay put; otherwise start a brand-new session state over the filtered
list and enter the Quiz screen. -/
def resetQuiz (st : AppState) (filter : Option RetakeFilter) : AppState :=
  let newQuestions := retakeFilter st filter
  if newQuestions.length = 0 then
    { st with error := some "No questions match the filter." }
  else
    { st with
      quizState :=
        { questions := newQuestions
          currentQuestionIndex := 0
          userAnswers := []
          isFinished := false
          isReviewMode := false }
      pendingAnswer := none
      mode := .quiz }

/-- The retake filter modes of part_003's `resetQuiz`: no low-confidence
mode exists in that variant. -/
inductive RetakeFilter2 where
  | all | incorrect
deriving DecidableEq

/-- The filtered question list computed by part_003's `resetQuiz`. -/
def retakeFilter_v2 (st : AppState) (filter : Option RetakeFilter2) : List MCQ :=
  match filter with
  | some .incorrect =>
    st.questions.filter (fun q => !(lookupAns st.quizState.userAnswers q.id == some q.correctAnswer))
  | _ => st.questions

/-- `resetQuiz` (part_003): on an empty filter result it just returns —
no error message is set, nothing changes; otherwise as in part_002. -/
def resetQuiz_v2 (st : AppState) (filter : Option RetakeFilter2) : AppState :=
  let nextQs := retakeFilter_v2 st filter
  if nextQs.length = 0 then st
  else
    { st with
      quizState :=
        { questions := nextQs
          currentQuestionIndex := 0
          userAnswers := []
          isFinished := false
          isReviewMode := false }
      pendingAnswer := none
      mode := .quiz }

/-- The partial update passed to `saveEditedQuestion`.  Its TS type is
`Partial<MCQ>`; every call site in both App variants supplies only
`question`, `options`, `correctAnswer` or `explanation`, so the patch is
modelled over exactly those fields. -/
structure MCQPatch where
  question : Option String := none
  options : Option (List String) := none
  correctAnswer : Option String := none
  explanation : Option String := none

/-- The spread `{ ...q, ...updated }` for an `MCQPatch`. -/
def applyPatch (q : MCQ) (p : MCQPatch) : MCQ :=
  { q with
    question := p.question.getD q.question
    options := p.options.getD q.options
    correctAnswer := p.correctAnswer.getD q.correctAnswer
    explanation := p.explanation.getD q.explanation }

/-- `saveEditedQuestion` (identical in both variants): merge the patch into
the matching record of the master list and of the active session view. -/
def saveEditedQuestion (st : AppState) (id : String) (p : MCQPatch) : AppState :=
  { st with
    questions := st.questions.map (fun q => if q.id == id then applyPatch q p else q)
    quizState := { st.quizState with
      questions := st.quizState.questions.map (fun q => if q.id == id then applyPatch q p else q) } }

/-- `clearAllData` (both variants; the user has confirmed the dialog):
remove both storage slots and reset quiz, history and session together. -/
def clearAllData (st : AppState) : AppState :=
  { st with
    questions := []
    attempts := []
    quizName := "Untitled Quiz"
    quizState :=
      { questions := []
        currentQuestionIndex := 0
        userAnswers := []
        isFinished := false
        isReviewMode := false }
    mode := .upload }

/-- The committed state changes of a successful `handleFileUpload` in
part_002 (lines 167-183): new title and questions, `setAttempts([])`
(the history is cleared), a fresh session, Quiz mode.  `title`/`qs` stand
for the extraction result after the App's cast to `MCQ[]`. -/
def handleFileUploadSuccess_v1 (st : AppState) (title : String) (qs : List MCQ) : AppState :=
  { st with
    error := none
    quizName := title
    questions := qs
    attempts := []
    quizState :=
      { questions := qs
        currentQuestionIndex := 0
        userAnswers := []
        isFinished := false
        isReviewMode := false }
    mode := .quiz }

/-- The committed state changes of a successful `handleFileUpload` in
part_003 (lines 172-187): identical except the attempt history is left
untouched. -/
def handleFileUploadSuccess_v2 (st : AppState) (title : String) (qs : List MCQ) : AppState :=
  { st with
    error := none
    quizName := title
    questions := qs
    quizState :=
      { questions := qs
        currentQuestionIndex := 0
        userAnswers := []
        isFinished := false
        isReviewMode := false }
    mode := .quiz }

/-- The catch block of `handleFileUpload` (both variants): surface the
failure message and return to the Upload screen; questions, session state
and history are untouched. -/
def handleFileUploadFailure (st : AppState) (msg : String) : AppState :=
  { st with error := some msg, mode := .upload }

/-! ### Supporting lemmas -/

/-- Decimal value of little-endian digits. -/
def revDigitsVal : List Char → Nat
  | [] => 0
  | c :: r => (c.toNat - 48) + 10 * revDigitsVal r

theorem digitChar_toNat : ∀ n < 10, (digitChar n).toNat = 48 + n := by decide

theorem digitChar_ne_dash : ∀ n < 10, digitChar n ≠ '-' := by decide

theorem revDigitsVal_natToRevDigitsFuel :
    ∀ fuel n, n < fuel → revDigitsVal (natToRevDigitsFuel fuel n) = n := by
  intro fuel
  induction fuel with
  | zero => intro n h; omega
  | succ f ih =>
    intro n h
    by_cases h10 : n < 10
    · simp [natToRevDigitsFuel, h10, revDigitsVal, digitChar_toNat n h10]
    · have hd : n / 10 < f := by
        have hlt : n / 10 < n := Nat.div_lt_self (by omega) (by omega)
        omega
      simp only [natToRevDigitsFuel, if_neg h10, revDigitsVal, ih _ hd,
        digitChar_toNat (n % 10) (Nat.mod_lt _ (by omega))]
      omega

theorem revDigitsVal_natToRevDigits (n : Nat) :
    revDigitsVal (natToRevDigits n) = n :=
  revDigitsVal_natToRevDigitsFuel (n + 1) n (Nat.lt_succ_self n)

theorem natToRevDigits_inj {a b : Nat} (h : natToRevDigits a = natToRevDigits b) :
    a = b := by
  have ha := revDigitsVal_natToRevDigits a
  have hb := revDigitsVal_natToRevDigits b
  rw [h, hb] at ha
  omega

theorem dash_not_mem_natToRevDigitsFuel :
    ∀ fuel n, '-' ∉ natToRevDigitsFuel fuel n := by
  intro fuel
  induction fuel with
  | zero => intro n; simp [natToRevDigitsFuel]
  | succ f ih =>
    intro n
    by_cases h10 : n < 10
    · simp only [natToRevDigitsFuel, if_pos h10, List.mem_singleton]
      exact fun hc => digitChar_ne_dash n h10 hc.symm
    · simp only [natToRevDigitsFuel, if_neg h10, List.mem_cons, not_or]
      exact ⟨fun hc => digitChar_ne_dash (n % 10) (Nat.mod_lt _ (by omega)) hc.symm, ih _⟩

theorem dash_not_mem_natToRevDigits (n : Nat) : '-' ∉ natToRevDigits n :=
  dash_not_mem_natToRevDigitsFuel (n + 1) n

/-- Two dash-free blocks followed by a dash-separated tail decompose
uniquely. -/
theorem append_dash_inj :
    ∀ (a c b d : List Char), '-' ∉ a → '-' ∉ c →
      a ++ '-' :: b = c ++ '-' :: d → a = c ∧ b = d := by
  intro a
  induction a with
  | nil =>
    intro c b d _ hc h
    cases c with
    | nil => simpa using h
    | cons x xs =>
      simp only [List.nil_append, List.cons_append, List.cons.injEq] at h
      exact absurd (h.1 ▸ List.mem_cons_self x xs) (by simp_all [h.1])
  | cons x xs ih =>
    intro c b d ha hc h
    cases c with
    | nil =>
      simp only [List.cons_append, List.nil_append, List.cons.injEq] at h
      exact absurd (h.1 ▸ List.mem_cons_self x xs) (by simp_all [h.1])
    | cons y ys =>
      simp only [List.cons_append, List.cons.injEq] at h
      obtain ⟨hxy, htail⟩ := h
      have := ih ys b d (fun hm => ha (List.mem_cons_of_mem _ hm))
        (fun hm => hc (List.mem_cons_of_mem _ hm)) htail
      exact ⟨by rw [hxy, this.1], this.2⟩

/-- The generated id determines both the index and the timestamp. -/
theorem genId_inj {i now j now' : Nat} (h : genId i now = genId j now') :
    i = j ∧ now = now' := by
  have hc : genIdChars i now = genIdChars j now' := by
    have h2 := congrArg String.data h
    simpa [genId] using h2
  simp only [genIdChars, List.cons.injEq, true_and] at hc
  have hsplit := append_dash_inj _ _ _ _
    (by simpa using dash_not_mem_natToRevDigits i)
    (by simpa using dash_not_mem_natToRevDigits j) hc
  refine ⟨natToRevDigits_inj (List.reverse_injective hsplit.1), ?_⟩
  have h2 : (natToRevDigits now).reverse = (natToRevDigits now').reverse := by
    have := hsplit.2
    simpa using this
  exact natToRevDigits_inj (List.reverse_injective h2)

theorem find?_map_upsert_self (m : List (String × String)) (k v : String)
    (hmem : m.any (fun p => p.1 == k)) :
    (m.map (fun p => if p.1 == k then (k, v) else p)).find? (fun p => p.1 == k)
      = some (k, v) := by
  induction m with
  | nil => simp at hmem
  | cons p rest ih =>
    by_cases hp : p.1 == k
    · have hkv : (((k, v) : String × String).1 == k) = true := by simp
      simp only [List.map_cons, if_pos hp, List.find?_cons, hkv]
    · simp only [List.any_cons, hp, Bool.false_or] at hmem
      have hp2 : (p.1 == k) = false := by simpa using hp
      simp only [List.map_cons, hp2, Bool.false_eq_true, if_false, List.find?_cons]
      exact ih hmem

theorem lookupAns_objUpsert_self (m : List (String × String)) (k v : String) :
    lookupAns (objUpsert m k v) k = some v := by
  unfold objUpsert
  by_cases hmem : m.any (fun p => p.1 == k)
  · simp only [if_pos hmem, lookupAns, find?_map_upsert_self m k v hmem, Option.map_some']
  · simp only [if_neg hmem, lookupAns, List.find?_append]
    have hnone : m.find? (fun p => p.1 == k) = none := by
      rw [List.find?_eq_none]
      intro p hp hbeq
      exact hmem (List.any_of_mem hp hbeq)
    rw [hnone]
    simp [Option.or]

theorem find?_map_upsert (m : List (String × String)) (k v k' : String)
    (h : k' ≠ k) :
    (m.map (fun p => if p.1 == k then (k, v) else p)).find? (fun p => p.1 == k')
      = m.find? (fun p => p.1 == k') := by
  induction m with
  | nil => rfl
  | cons p rest ih =>
    by_cases hp : p.1 == k
    · have hpk : p.1 = k := by simpa using hp
      have hkv : (((k, v) : String × String).1 == k') = false := by
        simp [show k ≠ k' from Ne.symm h]
      have hpk2 : (p.1 == k') = false := by
        simp [hpk, show k ≠ k' from Ne.symm h]
      simp only [List.map_cons, if_pos hp, List.find?_cons, hkv, hpk2]
      exact ih
    · simp only [List.map_cons, if_neg hp]
      by_cases hp' : (p.1 == k') = true
      · simp only [List.find?_cons, hp']
      · have hp2 : (p.1 == k') = false := by simpa using hp'
        simp only [List.find?_cons, hp2]
        exact ih

theorem lookupAns_objUpsert_ne (m : List (String × String)) (k v k' : String)
    (h : k' ≠ k) : lookupAns (objUpsert m k v) k' = lookupAns m k' := by
  unfold objUpsert
  by_cases hmem : m.any (fun p => p.1 == k)
  · simp only [if_pos hmem, lookupAns, find?_map_upsert m k v k' h]
  · simp only [if_neg hmem, lookupAns, List.find?_append]
    have h2 : List.find? (fun p => p.1 == k') [(k, v)] = none := by
      simp [show k ≠ k' from Ne.symm h]
    rw [h2, Option.or_none]

/-- Whatever the backend supplied, the `id` of a transformed record is the
freshly generated one. -/
theorem jsField_withId (q : Json) (s : String) :
    jsField (withId q s) "id" = some (.str s) := by
  have hnone :
      ((spreadFields q).filter (fun p => !(p.1 == "id"))).find?
        (fun p => p.1 == "id") = none := by
    rw [List.find?_eq_none]
    intro p hp
    have := (List.mem_filter.mp hp).2
    simp only [Bool.not_eq_true'] at this
    simp [this]
  simp only [withId, jsField, jsMember, List.find?_append, hnone, Option.none_or]
  simp

/-- Element `k` of the id-assignment map is the `k`-th backend record with
the id `genId k now`. -/
theorem assignIds_getElem? (qs : List Json) (now k : Nat) :
    (assignIds qs now)[k]? = (qs[k]?).map (fun q => withId q (genId k now)) := by
  simp only [assignIds, List.getElem?_map, List.getElem?_enum]
  cases qs[k]? <;> simp

/-- A successful `extractCore` run always returns the id-assignment map of
some backend record list. -/
theorem extractCore_ok_questions (cleaned : List Char) (now : Nat) (fb : String)
    (res : ExtractionResult) (h : extractCore cleaned now fb = .ok res) :
    ∃ qs, res.questions = assignIds qs now := by
  unfold extractCore at h
  split at h
  · exact absurd h (by simp)
  · split at h
    · exact absurd h (by simp)
    · split at h
      · exact ⟨_, by injection h with h'; rw [← h']⟩
      · exact absurd h (by simp)

/-- A successful variant-1 extraction returns the id-assignment map of some
backend record list. -/
theorem extract_v1_ok_questions (r : Option String) (now : Nat)
    (res : ExtractionResult) (h : extractMCQsFromText_v1 r now = .ok res) :
    ∃ qs, res.questions = assignIds qs now := by
  cases r with
  | none => exact absurd h (by simp [extractMCQsFromText_v1])
  | some t =>
    by_cases ht : t = ""
    · exact absurd h (by simp [extractMCQsFromText_v1, ht])
    · exact extractCore_ok_questions _ now _ res
        (by simpa [extractMCQsFromText_v1, ht] using h)

/-- The `k`-th record of a successful variant-1 extraction carries the id
`genId k now`, whatever the backend content was. -/
theorem extract_v1_id_at (r : Option String) (now : Nat)
    (res : ExtractionResult) (k : Nat) (q : Json)
    (hok : extractMCQsFromText_v1 r now = .ok res)
    (hq : res.questions[k]? = some q) :
    jsField q "id" = some (.str (genId k now)) := by
  obtain ⟨qs, hqs⟩ := extract_v1_ok_questions r now res hok
  rw [hqs, assignIds_getElem?] at hq
  cases hg : qs[k]? with
  | none => rw [hg] at hq; cases hq
  | some q0 =>
    rw [hg] at hq
    simp only [Option.map_some', Option.some.injEq] at hq
    rw [← hq]
    exact jsField_withId q0 (genId k now)

/-! ### Concrete fixtures used by the claim theorems -/

/-- A five-question fixture; every correct answer is `"A"`. -/
def mkQ (qid : String) : MCQ :=
  { id := qid, question := "Q", options := ["A", "B", "C", "D"]
    correctAnswer := "A", explanation := "E"
    pageNumber := ⟨1, 0⟩, confidence := ⟨9, -1⟩ }

/-- The C1 scenario session: five questions, questions 1 and 3 answered
correctly, question 2 incorrectly, questions 4 and 5 skipped; one earlier
attempt already on the ledger. -/
def scenarioSession : AppState :=
  { mode := .quiz
    questions := [mkQ "q1", mkQ "q2", mkQ "q3", mkQ "q4", mkQ "q5"]
    quizName := "S"
    quizState :=
      { questions := [mkQ "q1", mkQ "q2", mkQ "q3", mkQ "q4", mkQ "q5"]
        currentQuestionIndex := 4
        userAnswers := [("q1", "A"), ("q2", "B"), ("q3", "A")]
        isFinished := false
        isReviewMode := false }
    attempts := [{ id := "attempt-0", timestamp := 0, score := 1, total := 5 }]
    pendingAnswer := none
    error := none }

/-- A state whose session is empty while a pending answer is set: the
unguarded `currentQ.id` dereference of `handleConfirmAnswer` is reached. -/
def emptySessionPending : AppState :=
  { mode := .quiz
    questions := []
    quizName := "S"
    quizState :=
      { questions := [], currentQuestionIndex := 0, userAnswers := []
        isFinished := false, isReviewMode := false }
    attempts := []
    pendingAnswer := some "B"
    error := none }

/-- A one-question state: the question is answered and a pending answer for
it is set. -/
def answeredPendingSession : AppState :=
  { mode := .quiz
    questions := [mkQ "q1"]
    quizName := "S"
    quizState :=
      { questions := [mkQ "q1"], currentQuestionIndex := 0
        userAnswers := [("q1", "A")]
        isFinished := false, isReviewMode := false }
    attempts := []
    pendingAnswer := some "B"
    error := none }

/-! ### Claim theorems -/

/-- C1: `finishQuiz` scores the active questions as the count of committed
answers equal to the question's `correctAnswer`, prepends exactly one new
`Attempt {score, total := number of active questions}` to the history ledger
(length grows by one, the earlier attempts are the unchanged tail), sets
`finished := true`, and the score is a function of the questions and answers
alone; on the five-question scenario (1 and 3 correct, 2 incorrect, 4 and 5
skipped) the appended attempt carries `score = 2`, `total = 5`. -/
theorem finishQuiz_appends_scored_attempt :
    (∀ st now,
      (finishQuiz st now).attempts
        = { id := "attempt-" ++ natToStr now, timestamp := now,
            score := scoreOf st.quizState.questions st.quizState.userAnswers,
            total := st.quizState.questions.length : Attempt } :: st.attempts
      ∧ (finishQuiz st now).attempts.length = st.attempts.length + 1
      ∧ (finishQuiz st now).quizState.isFinished = true
      ∧ (finishQuiz st now).quizState.questions = st.quizState.questions)
    ∧ (∀ st st' now now',
        st.quizState.questions = st'.quizState.questions →
        st.quizState.userAnswers = st'.quizState.userAnswers →
        (mkAttempt st now).score = (mkAttempt st' now').score)
    ∧ ((finishQuiz scenarioSession 99).attempts.length
         = scenarioSession.attempts.length + 1
       ∧ (finishQuiz scenarioSession 99).attempts.head?
           = some { id := "attempt-" ++ natToStr 99, timestamp := 99,
                    score := 2, total := 5 }
       ∧ (finishQuiz scenarioSession 99).attempts.tail = scenarioSession.attempts
       ∧ (finishQuiz scenarioSession 99).quizState.isFinished = true) := by
  refine ⟨fun st now => ⟨rfl, rfl, rfl, rfl⟩, ?_, ?_, ?_, ?_, ?_⟩
  · intro st st' now now' hq ha
    simp [mkAttempt, scoreOf, hq, ha]
  · rfl
  · decide
  · rfl
  · rfl

/-- C1 witness: the determinism conjunct applied at the concrete scenario
state with two different timestamps. -/
theorem finishQuiz_appends_scored_attempt_witness :
    (mkAttempt scenarioSession 3).score = (mkAttempt scenarioSession 7).score :=
  finishQuiz_appends_scored_attempt.2.1 scenarioSession scenarioSession 3 7 rfl rfl

/-- C10: `handleConfirmAnswer` is safe under the precondition that the
current index is in range (then, with a pending answer set, the
`currentQ.id` lookup succeeds and no undefined dereference happens), and the
operation itself has no guard for an empty session or out-of-range index:
on an empty session with a pending answer it reaches the undefined
dereference (modelled as `none`). -/
theorem handleConfirmAnswer_safe_iff_index_in_range :
    (∀ st a, st.pendingAnswer = some a →
      st.quizState.currentQuestionIndex < st.quizState.questions.length →
      (handleConfirmAnswer st).isSome = true)
    ∧ handleConfirmAnswer emptySessionPending = none := by
  constructor
  · intro st a hp hidx
    by_cases ha : a = ""
    · subst ha
      simp [handleConfirmAnswer, hp, strTruthy]
    · have htr : strTruthy st.pendingAnswer = true := by
        simp [hp, strTruthy, ha]
      have hq : st.quizState.questions[st.quizState.currentQuestionIndex]?
          = some st.quizState.questions[st.quizState.currentQuestionIndex] :=
        List.getElem?_eq_getElem hidx
      simp [handleConfirmAnswer, htr, hp, hq, strTruthy, ha]
  · rfl

/-- C10 witness: the safety conjunct applied to the one-question state. -/
theorem handleConfirmAnswer_safe_iff_index_in_range_witness :
    (handleConfirmAnswer answeredPendingSession).isSome = true :=
  handleConfirmAnswer_safe_iff_index_in_range.1 answeredPendingSession "B" rfl
    (by decide)

/-- The fenced one-question backend reply of the spec's scenario. -/
def scenarioReply : String :=
  "```json\n\x7b\"title\":\"T\",\"questions\":[\x7b\"question\":\"Q1\",\"options\":[\"A\",\"B\",\"C\",\"D\"],\"correctAnswer\":\"B\",\"explanation\":\"E\",\"pageNumber\":1,\"confidence\":0.9\x7d]\x7d\n```"

/-- C2 counterexample: in the second `extractMCQsFromText` variant an empty
reply, an undecodable reply and a schema-violating reply (`\x7b\x7d` has no
`questions`) all fail with the identical generic error — the three failure
kinds are not mutually distinguishable there. -/
theorem extract_v2_failures_share_one_message :
    extractMCQsFromText_v2 none 0 = .error failMsg_v2
    ∧ extractMCQsFromText_v2 (some "not json") 0 = .error failMsg_v2
    ∧ extractMCQsFromText_v2 (some "\x7b\x7d") 0 = .error failMsg_v2 :=
  ⟨rfl, rfl, rfl⟩

/-- C2 (amended): in the first variant the three failure classes are raised
as three distinct error kinds with three distinct user-facing messages (a
reply decoding to JSON `null` raises a fourth, property-access failure); in
the second variant every failure collapses to the one generic message; and
in both variants the upload workflow surfaces the message, returns to the
Upload screen and leaves questions, session state and history unchanged. -/
theorem extract_failure_taxonomy_and_recovery :
    (extractMCQsFromText_v1 none 0 = .error .emptyResponse
     ∧ extractMCQsFromText_v1 (some "not json") 0 = .error .malformedOutput
     ∧ extractMCQsFromText_v1 (some "\x7b\x7d") 0 = .error .schemaViolation
     ∧ extractMCQsFromText_v1 (some "null") 0 = .error .nullAccess)
    ∧ (errMessage1 .emptyResponse ≠ errMessage1 .malformedOutput
       ∧ errMessage1 .emptyResponse ≠ errMessage1 .schemaViolation
       ∧ errMessage1 .malformedOutput ≠ errMessage1 .schemaViolation)
    ∧ (∀ r now e, extractMCQsFromText_v2 r now = .error e → e = failMsg_v2)
    ∧ (∀ st msg, (handleFileUploadFailure st msg).mode = .upload
        ∧ (handleFileUploadFailure st msg).error = some msg
        ∧ (handleFileUploadFailure st msg).questions = st.questions
        ∧ (handleFileUploadFailure st msg).quizState = st.quizState
        ∧ (handleFileUploadFailure st msg).attempts = st.attempts) := by
  refine ⟨⟨rfl, rfl, rfl, rfl⟩, ⟨by decide, by decide, by decide⟩, ?_,
    fun st msg => ⟨rfl, rfl, rfl, rfl, rfl⟩⟩
  intro r now e h
  cases r with
  | none =>
    simp only [extractMCQsFromText_v2, Except.error.injEq] at h
    exact h.symm
  | some t =>
    by_cases ht : t = ""
    · simp only [extractMCQsFromText_v2, ht, if_pos, Except.error.injEq] at h
      exact h.symm
    · simp only [extractMCQsFromText_v2, if_neg ht] at h
      cases hc : extractCore (jsTrim t.data) now "QuizAI Generated Quiz" with
      | error e' =>
        rw [hc] at h
        simp only [Except.error.injEq] at h
        exact h.symm
      | ok r' =>
        rw [hc] at h
        exact absurd h (by simp)

/-- C2 witness: the variant-2 collapse conjunct applied to the empty-reply
input. -/
theorem extract_failure_taxonomy_and_recovery_witness :
    failMsg_v2 = failMsg_v2 :=
  extract_failure_taxonomy_and_recovery.2.2.1 none 0 failMsg_v2 rfl

/-- C3 counterexample: the second `extractMCQsFromText` variant only trims —
it does not strip fenced code block markers — so on the spec's fenced
scenario reply extraction fails instead of succeeding. -/
theorem extract_v2_fails_on_fenced_reply :
    extractMCQsFromText_v2 (some scenarioReply) 0 = .error failMsg_v2 := rfl

/-- C3 (amended): the first variant trims the reply and strips the fence
tokens before decoding, so on the spec's fenced scenario — with or without
extra surrounding whitespace — extraction succeeds with title `"T"` and
exactly one record carrying the newly assigned id and `pageNumber == 1`;
the second variant (only trimming) fails on that reply. -/
theorem extract_v1_strips_fences_scenario :
    ∀ now,
      extractMCQsFromText_v1 (some scenarioReply) now
        = .ok ⟨.str "T",
            [Json.obj [("question", .str "Q1"),
                       ("options", .arr [.str "A", .str "B", .str "C", .str "D"]),
                       ("correctAnswer", .str "B"),
                       ("explanation", .str "E"),
                       ("pageNumber", .num ⟨1, 0⟩),
                       ("confidence", .num ⟨9, -1⟩),
                       ("id", .str (genId 0 now))]]⟩
      ∧ extractMCQsFromText_v1 (some ("  \n" ++ scenarioReply ++ "\n  ")) now
          = extractMCQsFromText_v1 (some scenarioReply) now := by
  intro now
  exact ⟨rfl, rfl⟩

/-- A one-question session whose question is answered correctly, so the
`incorrect` retake filter comes back empty. -/
def allCorrectSession : AppState :=
  { mode := .results
    questions := [mkQ "q1"]
    quizName := "S"
    quizState :=
      { questions := [mkQ "q1"], currentQuestionIndex := 0
        userAnswers := [("q1", "A")]
        isFinished := true, isReviewMode := false }
    attempts := []
    pendingAnswer := none
    error := none }

/-- C4 counterexample: in the part_003 variant, `resetQuiz('incorrect')` on a
session where everything was answered correctly returns silently — the state
is completely unchanged and in particular no error condition is surfaced to
the user (the inline error stays `none`), contradicting the claim that the
empty-filter condition is surfaced. -/
theorem resetQuiz_v2_empty_filter_is_silent :
    retakeFilter_v2 allCorrectSession (some .incorrect) = []
    ∧ resetQuiz_v2 allCorrectSession (some .incorrect) = allCorrectSession
    ∧ (resetQuiz_v2 allCorrectSession (some .incorrect)).error = none :=
  ⟨rfl, rfl, rfl⟩

/-- C4 (amended): in part_002's `resetQuiz`, `all` (or no filter) keeps the
full master sequence, `incorrect` keeps exactly the unanswered-or-wrong
records, `low-confidence` keeps exactly the records with `confidence < 0.8`,
and an empty filter result only sets the inline error message — no
zero-question session starts, the session state, mode and history are
unchanged; a nonempty result starts a brand-new session over the filtered
list.  In part_003's variant no `low-confidence` mode exists and an empty
filter result returns with the state unchanged but nothing surfaced. -/
theorem resetQuiz_filter_spec :
    (∀ st, retakeFilter st (some .all) = st.questions
       ∧ retakeFilter st none = st.questions)
    ∧ (∀ st q, q ∈ retakeFilter st (some .incorrect) ↔
         q ∈ st.questions
         ∧ lookupAns st.quizState.userAnswers q.id ≠ some q.correctAnswer)
    ∧ (∀ st q, q ∈ retakeFilter st (some .lowConfidence) ↔
         q ∈ st.questions ∧ jsNumLt q.confidence ⟨8, -1⟩ = true)
    ∧ (∀ st f, retakeFilter st f = [] →
         resetQuiz st f = { st with error := some "No questions match the filter." })
    ∧ (∀ st f, retakeFilter st f ≠ [] →
         (resetQuiz st f).quizState
             = { questions := retakeFilter st f, currentQuestionIndex := 0,
                 userAnswers := [], isFinished := false, isReviewMode := false }
           ∧ (resetQuiz st f).mode = .quiz
           ∧ (resetQuiz st f).attempts = st.attempts
           ∧ (resetQuiz st f).error = st.error)
    ∧ (∀ st f, retakeFilter_v2 st f = [] → resetQuiz_v2 st f = st) := by
  refine ⟨fun st => ⟨rfl, rfl⟩, ?_, ?_, ?_, ?_, ?_⟩
  · intro st q
    simp [retakeFilter, List.mem_filter]
  · intro st q
    simp [retakeFilter, List.mem_filter]
  · intro st f h
    simp only [resetQuiz, h, List.length_nil, if_pos]
  · intro st f h
    have hlen : ¬(retakeFilter st f).length = 0 := by
      simpa [List.length_eq_zero] using h
    refine ⟨?_, ?_, ?_, ?_⟩ <;> simp only [resetQuiz, if_neg hlen]
  · intro st f h
    simp only [resetQuiz_v2, h, List.length_nil, if_pos]

/-- C4 witness: the empty-filter conjuncts applied to the all-correct
session. -/
theorem resetQuiz_filter_spec_witness :
    resetQuiz allCorrectSession (some .incorrect)
        = { allCorrectSession with error := some "No questions match the filter." }
    ∧ resetQuiz_v2 allCorrectSession (some .incorrect) = allCorrectSession :=
  ⟨resetQuiz_filter_spec.2.2.2.1 allCorrectSession (some .incorrect) rfl,
   resetQuiz_filter_spec.2.2.2.2.2 allCorrectSession (some .incorrect) rfl⟩

/-- A minimal one-question backend reply (no title, so the fallback is
used). -/
def replyOneQ_A : String := "\x7b\"questions\":[\x7b\"question\":\"qa\"\x7d]\x7d"

/-- A second, different one-question backend reply. -/
def replyOneQ_B : String := "\x7b\"questions\":[\x7b\"question\":\"qb\"\x7d]\x7d"

/-- The extraction result of `replyOneQ_A` at timestamp 7. -/
def resOneQ_A : ExtractionResult :=
  ⟨.str "Untitled Quiz", [withId (Json.obj [("question", .str "qa")]) (genId 0 7)]⟩

/-- C5 counterexample: two different extraction calls whose `Date.now()`
falls in the same millisecond assign the very same id (`q-0-<now>`) to their
first records — ids are reused across calls, contradicting the claim's
"never reused across calls". -/
theorem extract_ids_reused_across_same_millisecond_calls :
    replyOneQ_A ≠ replyOneQ_B
    ∧ (extractMCQsFromText_v1 (some replyOneQ_A) 7).map
        (fun r => r.questions.map (fun q => jsField q "id"))
        = .ok [some (.str (genId 0 7))]
    ∧ (extractMCQsFromText_v1 (some replyOneQ_B) 7).map
        (fun r => r.questions.map (fun q => jsField q "id"))
        = .ok [some (.str (genId 0 7))] :=
  ⟨by decide, rfl, rfl⟩

/-- C5 (amended): every record of a successful extraction carries the
generated id `q-<index>-<Date.now()>` — any backend-supplied id is replaced
at normalization time — so ids are pairwise distinct within one call, are
distinct across two calls whenever the two calls observe different
`Date.now()` millisecond values (two calls in the same millisecond reuse
ids), and the correction workflow never changes an id. -/
theorem extract_id_assignment_spec :
    (∀ r now res (k : Nat) q, extractMCQsFromText_v1 r now = .ok res →
       res.questions[k]? = some q →
       jsField q "id" = some (.str (genId k now)))
    ∧ (∀ r now res (k l : Nat) qk ql, extractMCQsFromText_v1 r now = .ok res →
         res.questions[k]? = some qk → res.questions[l]? = some ql → k ≠ l →
         jsField qk "id" ≠ jsField ql "id")
    ∧ (∀ r r' now now' res res' (k l : Nat) qk ql,
         extractMCQsFromText_v1 r now = .ok res →
         extractMCQsFromText_v1 r' now' = .ok res' →
         res.questions[k]? = some qk → res'.questions[l]? = some ql →
         now ≠ now' → jsField qk "id" ≠ jsField ql "id")
    ∧ (∀ st i p, (saveEditedQuestion st i p).questions.map (fun q => q.id)
          = st.questions.map (fun q => q.id)
       ∧ (saveEditedQuestion st i p).quizState.questions.map (fun q => q.id)
          = st.quizState.questions.map (fun q => q.id)) := by
  refine ⟨extract_v1_id_at, ?_, ?_, ?_⟩
  · intro r now res k l qk ql hok hk hl hne heq
    have ha := extract_v1_id_at r now res k qk hok hk
    have hb := extract_v1_id_at r now res l ql hok hl
    rw [ha, hb] at heq
    simp only [Option.some.injEq, Json.str.injEq] at heq
    exact hne (genId_inj heq).1
  · intro r r' now now' res res' k l qk ql hok hok' hk hl hne heq
    have ha := extract_v1_id_at r now res k qk hok hk
    have hb := extract_v1_id_at r' now' res' l ql hok' hl
    rw [ha, hb] at heq
    simp only [Option.some.injEq, Json.str.injEq] at heq
    exact hne (genId_inj heq).2
  · intro st i p
    constructor <;>
      (simp only [saveEditedQuestion, List.map_map]
       apply List.map_congr_left
       intro q hq
       by_cases h : q.id = i <;> simp [h, applyPatch])

/-- C5 witness: the id-shape conjunct applied to the concrete one-question
extraction. -/
theorem extract_id_assignment_spec_witness :
    jsField (withId (Json.obj [("question", Json.str "qa")]) (genId 0 7)) "id"
      = some (.str (genId 0 7)) :=
  extract_id_assignment_spec.1 (some replyOneQ_A) 7 resOneQ_A 0
    (withId (Json.obj [("question", Json.str "qa")]) (genId 0 7)) rfl rfl

/-- A one-question state with an unanswered question and a pending answer. -/
def freshPendingSession : AppState :=
  { mode := .quiz
    questions := [mkQ "q1"]
    quizName := "S"
    quizState :=
      { questions := [mkQ "q1"], currentQuestionIndex := 0, userAnswers := []
        isFinished := false, isReviewMode := false }
    attempts := []
    pendingAnswer := some "B"
    error := none }

/-- The state `handleConfirmAnswer` produces from `freshPendingSession`. -/
def confirmedFreshSession : AppState :=
  { freshPendingSession with
    quizState := { freshPendingSession.quizState with userAnswers := [("q1", "B")] }
    pendingAnswer := none }

/-- C6 counterexample: with a pending answer set while the current question
already has a committed answer, `handleConfirmAnswer` overwrites it — the
committed value for `"q1"` changes from `"A"` to `"B"`, so the operation is
not guarded by the absence of a prior committed answer and a committed
answer is not immutable through this path. -/
theorem confirmAnswer_overwrites_committed_answer :
    lookupAns answeredPendingSession.quizState.userAnswers "q1" = some "A"
    ∧ (handleConfirmAnswer answeredPendingSession).map
        (fun s => lookupAns s.quizState.userAnswers "q1") = some (some "B")
    ∧ ("A" : String) ≠ "B" :=
  ⟨rfl, rfl, by decide⟩

/-- C6 (amended): `handleConfirmAnswer` is guarded only by PendingAnswer
being set (truthy): whenever it is, the pending value is committed for the
current question's id — overwriting any prior committed answer for that id —
all other committed answers are unchanged, and PendingAnswer is cleared;
with no (truthy) pending answer the state is untouched.  The at-most-once
discipline is enforced by the UI, which renders the confirm control only
when the current question is unanswered. -/
theorem handleConfirmAnswer_commit_spec :
    (∀ st a q st', st.pendingAnswer = some a → a ≠ "" →
       st.quizState.questions[st.quizState.currentQuestionIndex]? = some q →
       handleConfirmAnswer st = some st' →
       lookupAns st'.quizState.userAnswers q.id = some a
       ∧ (∀ k, k ≠ q.id →
            lookupAns st'.quizState.userAnswers k
              = lookupAns st.quizState.userAnswers k)
       ∧ st'.pendingAnswer = none)
    ∧ (∀ st, strTruthy st.pendingAnswer = false → handleConfirmAnswer st = some st) := by
  constructor
  · intro st a q st' hp ha hq hcall
    have htr : strTruthy st.pendingAnswer = true := by simp [hp, strTruthy, ha]
    rw [handleConfirmAnswer, if_pos htr, hp, List.get?_eq_getElem?, hq] at hcall
    injection hcall with h2
    refine ⟨?_, ?_, ?_⟩
    · rw [← h2]
      exact lookupAns_objUpsert_self st.quizState.userAnswers q.id a
    · intro k hk
      rw [← h2]
      exact lookupAns_objUpsert_ne st.quizState.userAnswers q.id a k hk
    · rw [← h2]
  · intro st h
    rw [handleConfirmAnswer, if_neg (by simp [h])]

/-- C6 witness: the commit conjunct applied to the fresh one-question
session. -/
theorem handleConfirmAnswer_commit_spec_witness :
    lookupAns confirmedFreshSession.quizState.userAnswers "q1" = some "B"
    ∧ confirmedFreshSession.pendingAnswer = none :=
  ⟨(handleConfirmAnswer_commit_spec.1 freshPendingSession "B" (mkQ "q1")
      confirmedFreshSession rfl (by decide) rfl rfl).1,
   (handleConfirmAnswer_commit_spec.1 freshPendingSession "B" (mkQ "q1")
      confirmedFreshSession rfl (by decide) rfl rfl).2.2⟩

/-- A backend reply whose `correctAnswer` matches none of its options. -/
def replyBadAnswer : String :=
  "\x7b\"title\":\"T\",\"questions\":[\x7b\"question\":\"Q1\",\"options\":[\"A\",\"B\",\"C\",\"D\"],\"correctAnswer\":\"E\",\"explanation\":\"X\",\"pageNumber\":1,\"confidence\":1\x7d]\x7d"

/-- C7 counterexample: the extraction pipeline performs no membership check,
so it happily produces a record whose `correctAnswer` (`"E"`) is neither one
of its four options nor the failure sentinel — the claimed invariant does
not hold for every produced record. -/
theorem extract_accepts_correctAnswer_outside_options :
    (extractMCQsFromText_v1 (some replyBadAnswer) 5).map
        (fun r => r.questions.map
          (fun q => (jsField q "correctAnswer", jsField q "options")))
      = .ok [(some (.str "E"),
              some (.arr [.str "A", .str "B", .str "C", .str "D"]))]
    ∧ ("E" : String) ∉ (["A", "B", "C", "D"] : List String)
    ∧ ("E" : String) ≠ "Answer not found in PDF" :=
  ⟨rfl, by decide, by decide⟩

/-- C7 (amended): nothing in the code enforces the invariant — extraction
includes backend records as-is (see the counterexample) and `saveEditedQuestion`
merges arbitrary partial updates.  What does hold: an edit that sets
`correctAnswer` to one of the record's own options (the only thing the admin
selector offers) and leaves `options` unchanged yields a record satisfying
`correctAnswer ∈ options`. -/
theorem applyEdit_correctAnswer_within_options :
    ∀ st i c, (∀ q ∈ st.questions, q.id = i → c ∈ q.options) →
      ∀ q' ∈ (saveEditedQuestion st i
          { question := none, options := none,
            correctAnswer := some c, explanation := none }).questions,
        q'.id = i → q'.correctAnswer ∈ q'.options := by
  intro st i c hc q' hq' hid
  simp only [saveEditedQuestion, List.mem_map] at hq'
  obtain ⟨q, hq, hq'eq⟩ := hq'
  by_cases h : q.id = i
  · have hb : (q.id == i) = true := by simp [h]
    rw [← hq'eq]
    simp only [hb, if_true]
    simpa [applyPatch] using hc q hq h
  · have hb : (q.id == i) = false := by simp [h]
    rw [← hq'eq] at hid
    simp only [hb, Bool.false_eq_true, if_false] at hid
    exact absurd hid h

/-- C7 witness: the edit conjunct applied to the one-question state, setting
the correct answer to option `"B"`. -/
theorem applyEdit_correctAnswer_within_options_witness :
    (applyPatch (mkQ "q1")
        { question := none, options := none,
          correctAnswer := some "B", explanation := none }).correctAnswer
      ∈ (applyPatch (mkQ "q1")
          { question := none, options := none,
            correctAnswer := some "B", explanation := none }).options :=
  applyEdit_correctAnswer_within_options answeredPendingSession "q1" "B"
    (by decide) _ (by decide) rfl

/-- C8 counterexample: in the part_002 variant a successful upload of a new
document empties the attempt history (`setAttempts([])`) even though earlier
attempts existed — the ledger is not cleared solely by the reset-everything
action. -/
theorem upload_clears_attempt_history_v1 :
    scenarioSession.attempts ≠ []
    ∧ (handleFileUploadSuccess_v1 scenarioSession "T" [mkQ "n1"]).attempts = [] :=
  ⟨by decide, rfl⟩

/-- C8 (amended): no operation mutates or deletes an individual attempt —
every operation either leaves the ledger unchanged, prepends exactly one new
attempt (`finishQuiz` / final `goToNext`), or bulk-clears it; the
bulk-clearing sites are the reset-everything action (which also clears
QuizMeta and SessionState) and, in the part_002 variant only, a successful
upload of a new document; part_003's upload preserves the ledger. -/
theorem historyLedger_mutation_sites :
    (∀ st now, (finishQuiz st now).attempts = mkAttempt st now :: st.attempts)
    ∧ (∀ st i, (jumpToQuestion st i).attempts = st.attempts)
    ∧ (∀ st, (goToPrev st).attempts = st.attempts)
    ∧ (∀ st now, (goToNext st now).attempts = st.attempts
         ∨ (goToNext st now).attempts = mkAttempt st now :: st.attempts)
    ∧ (∀ st, (handleConfirmAnswer st).map (fun s => s.attempts) = none
         ∨ (handleConfirmAnswer st).map (fun s => s.attempts) = some st.attempts)
    ∧ (∀ st f, (resetQuiz st f).attempts = st.attempts)
    ∧ (∀ st f, (resetQuiz_v2 st f).attempts = st.attempts)
    ∧ (∀ st i p, (saveEditedQuestion st i p).attempts = st.attempts)
    ∧ (∀ st msg, (handleFileUploadFailure st msg).attempts = st.attempts)
    ∧ (∀ st t qs, (handleFileUploadSuccess_v2 st t qs).attempts = st.attempts)
    ∧ (∀ st t qs, (handleFileUploadSuccess_v1 st t qs).attempts = [])
    ∧ (∀ st, (clearAllData st).attempts = []
        ∧ (clearAllData st).questions = []
        ∧ (clearAllData st).quizState.questions = []
        ∧ (clearAllData st).quizState.userAnswers = []
        ∧ (clearAllData st).mode = .upload) := by
  refine ⟨fun st now => rfl, fun st i => rfl, ?_, ?_, ?_, ?_, ?_,
    fun st i p => rfl, fun st msg => rfl, fun st t qs => rfl,
    fun st t qs => rfl, fun st => ⟨rfl, rfl, rfl, rfl, rfl⟩⟩
  · intro st
    unfold goToPrev
    split <;> rfl
  · intro st now
    unfold goToNext
    split
    · left; rfl
    · right; rfl
  · intro st
    unfold handleConfirmAnswer
    split
    · split
      · right; rfl
      · left; rfl
      · right; rfl
    · right; rfl
  · intro st f
    by_cases h : (retakeFilter st f).length = 0 <;> simp [resetQuiz, h]
  · intro st f
    by_cases h : (retakeFilter_v2 st f).length = 0 <;> simp [resetQuiz_v2, h]

/-- A corrupt stored snapshot (not decodable as JSON). -/
def corruptStored : String := "\x7bnot json"

/-- C9 counterexample: the attempt-history slot is read without any
`try`/`catch`, so a corrupt stored value raises a `SyntaxError` out of the
startup initializer instead of being treated as empty history. -/
theorem corrupt_history_slot_raises_at_startup :
    loadHistory (some corruptStored) = .error "SyntaxError"
    ∧ loadHistory (some corruptStored) ≠ .ok (.arr []) := by
  refine ⟨rfl, ?_⟩
  intro h
  rw [show loadHistory (some corruptStored) = .error "SyntaxError" from rfl] at h
  exact Except.noConfusion h

/-- C9 (amended): of the two snapshots read at startup, only the
quiz/progress slot is protected: a corrupt value there is caught, logged and
treated as empty state; the attempt-history slot is read without a handler,
so a corrupt value there raises out of startup (an empty slot yields the
empty history). -/
theorem startup_read_recovery_spec :
    (∀ s e, parseJsonChars s.data = .error e → loadQuizSlot (some s) = none)
    ∧ loadQuizSlot none = none
    ∧ loadHistory none = .ok (.arr [])
    ∧ (∀ s e, parseJsonChars s.data = .error e → loadHistory (some s) = .error e) := by
  refine ⟨?_, rfl, rfl, ?_⟩
  · intro s e h
    simp [loadQuizSlot, h]
  · intro s e h
    simp [loadHistory, h]

/-- C9 witness: both implications applied to the concrete corrupt value. -/
theorem startup_read_recovery_spec_witness :
    loadQuizSlot (some corruptStored) = none
    ∧ loadHistory (some corruptStored) = .error "SyntaxError" :=
  ⟨startup_read_recovery_spec.1 corruptStored "SyntaxError" rfl,
   startup_read_recovery_spec.2.2.2 corruptStored "SyntaxError" rfl⟩

end QuizAI
